import Mathlib

/-!
Verification of the CSV ingestion / type-coercion pipeline of the
`DataDownloader` class (`src/1. Project/download.py`).

The embedding is shallow and executable:

* Raw CSV cells are `String`s; Python's `int(...)` / `float(...)` parsers are
  modelled as decidable recognisers on strings (ASCII whitespace stripped,
  optional sign, digits; the float grammar additionally allows a decimal
  point, an exponent, and inf/infinity/nan).
* The four converter methods `parse_i`, `parse_f`, `parse_u5`, `parse_u_m`
  are translated line by line from the source; Python's `s.replace('"','')`
  is a character filter, `s.replace(',','.')` a character map, and the
  slices `element[1:3]` / `element[3:5]` are clamped list slices.
* `numpy.loadtxt`'s final conversion of a converter-emitted string to the
  declared column dtype is modelled by `finalConvOk`: integer dtypes accept
  the strings Python's `int` parses whose value fits the 64-bit C-long
  range — numpy converts through a C long, wrapping in-range values into
  the declared 1/2/4-byte width on the 2020-era release the project ran
  on, and raising `OverflowError` for values beyond the C-long range in
  every release — float dtypes accept what Python's `float` parses,
  fixed-width unicode dtypes never fail (numpy truncates), and
  `datetime64[D]` requires an ISO date.
* Tables are `(names, cols)` pairs of lists; archives are lists of named
  members each holding raw rows; `parse_region_data` and `get_list` are
  state-passing translations of the corresponding methods, with
  `Except PyErr` for the exceptions they can raise.  The in-place mutation
  of the first requested region's cached tuple performed by `get_list`
  (the accumulator aliases that cache entry) is made explicit by writing
  the grown accumulator back into the program cache at every concatenation
  step.  `pickle.dump`/`pickle.load` over gzip are modelled as a faithful
  store/retrieve of the table value.
-/

set_option maxRecDepth 4096

namespace IZV

/-! ### Python string primitives -/

/-- ASCII whitespace, as stripped by Python's `int()` / `float()`. -/
def isPyWs (c : Char) : Bool :=
  c = ' ' || c = '\t' || c = '\n' || c = '\x0d' || c = '\x0b' || c = '\x0c'

/-- Strip leading and trailing Python whitespace from a character list. -/
def stripWsL (l : List Char) : List Char :=
  ((l.dropWhile isPyWs).reverse.dropWhile isPyWs).reverse

/-- Numeric value of a digit string; `none` unless nonempty and all digits. -/
def digitsVal (l : List Char) : Option Nat :=
  if l ≠ [] ∧ l.all Char.isDigit then
    some (l.foldl (fun a c => 10 * a + (c.toNat - '0'.toNat)) 0)
  else none

/-- Sign-and-digits step of Python's `int(s)`, applied after whitespace
stripping. -/
def pyIntCore (l : List Char) : Option Int :=
  match l with
  | [] => none
  | c :: rest =>
    if c = '+' then (digitsVal rest).map Int.ofNat
    else if c = '-' then (digitsVal rest).map (fun n => -(n : Int))
    else (digitsVal (c :: rest)).map Int.ofNat

/-- Python's `int(s)` on a character list: strip whitespace, optional sign,
base-10 digits.  `none` models `ValueError`. -/
def pyIntParseL (l : List Char) : Option Int := pyIntCore (stripWsL l)

/-- Python's `int(s)` for strings. -/
def pyIntParse (s : String) : Option Int := pyIntParseL s.data

/-- Digit run at the head of a list: the run and the remainder. -/
def spanDigits (l : List Char) : List Char × List Char :=
  (l.takeWhile Char.isDigit, l.dropWhile Char.isDigit)

/-- Nonempty all-digit list. -/
def allDigits1 (l : List Char) : Bool := !l.isEmpty && l.all Char.isDigit

/-- Exponent-part recogniser of Python's float grammar (after the mantissa):
empty, or `e`/`E` followed by an optionally signed digit run. -/
def expOk (l : List Char) : Bool :=
  match l with
  | [] => true
  | 'e' :: r => match r with
    | '+' :: r2 => allDigits1 r2
    | '-' :: r2 => allDigits1 r2
    | r2 => allDigits1 r2
  | 'E' :: r => match r with
    | '+' :: r2 => allDigits1 r2
    | '-' :: r2 => allDigits1 r2
    | r2 => allDigits1 r2
  | _ => false

/-- Mantissa-plus-exponent recogniser: `digits [. digits] [exp]` with at
least one mantissa digit. -/
def mantExpOk (l : List Char) : Bool :=
  let p := spanDigits l
  match p.2 with
  | '.' :: r2 =>
    let q := spanDigits r2
    decide (0 < p.1.length + q.1.length) && expOk q.2
  | r => decide (0 < p.1.length) && expOk r

/-- Special non-finite spellings accepted by Python's `float`. -/
def floatWordOk (l : List Char) : Bool :=
  let w := l.map Char.toLower
  w = "inf".data || w = "infinity".data || w = "nan".data

/-- Python's `float(s)` succeeding, as a recogniser on character lists. -/
def pyFloatOkL (l : List Char) : Bool :=
  match stripWsL l with
  | [] => false
  | c :: rest =>
    if c = '+' || c = '-' then floatWordOk rest || mantExpOk rest
    else floatWordOk (c :: rest) || mantExpOk (c :: rest)

/-- Python's `float(s)` succeeding, for strings. -/
def pyFloatOk (s : String) : Bool := pyFloatOkL s.data

/-- Python `element.replace('"', '')`: delete every double-quote character. -/
def stripQuotes (s : String) : String := ⟨s.data.filter (fun c => c ≠ '"')⟩

/-- Python `element.replace(',', '.')`: map every comma to a dot. -/
def commaDot (s : String) : String :=
  ⟨s.data.map (fun c => if c = ',' then '.' else c)⟩

/-- Python slice `s[a:b]` for `a ≤ b` (clamped at the string's end). -/
def pySlice (s : String) (a b : Nat) : String := ⟨(s.data.drop a).take (b - a)⟩

/-- Python's `or` on strings used in `parse_i(x) or '-1'`: the left operand
unless it is falsy (empty). -/
def pyOrStr (a b : String) : String := if a = "" then b else a

/-! ### The four converter methods of `DataDownloader` -/

/-- Method `DataDownloader.parse_i` (download.py:357-377): strip quotes; if the
rest parses with Python `int`, return it, else the sentinel `"-1"`. -/
def parse_i (s : String) : String :=
  if (pyIntParse (stripQuotes s)).isSome then stripQuotes s else "-1"

/-- Method `DataDownloader.parse_f` (download.py:380-400): strip quotes, replace
decimal commas with dots; if the rest parses with Python `float`, return
it, else the sentinel `"-1"`. -/
def parse_f (s : String) : String :=
  if pyFloatOk (commaDot (stripQuotes s)) then commaDot (stripQuotes s) else "-1"

/-- Method `DataDownloader.parse_u5` (download.py:403-428): read hours from
`element[1:3]` and minutes from `element[3:5]`; any parse exception or
hours `> 24` yields `''`, minutes `> 59` keeps the hour characters, and
otherwise the result is `"HH:MM"`. -/
def parse_u5 (s : String) : String :=
  match pyIntParse (pySlice s 1 3) with
  | none => ""
  | some hv =>
    if hv > 24 then ""
    else
      match pyIntParse (pySlice s 3 5) with
      | none => ""
      | some mv =>
        if mv > 59 then pySlice s 1 3
        else pySlice s 1 3 ++ ":" ++ pySlice s 3 5

/-- Method `DataDownloader.parse_u_m` (download.py:431-446): strip quotes only. -/
def parse_u_m (s : String) : String := stripQuotes s

example : parse_u5 "\"0845\"" = "08:45" := by decide
example : parse_u5 "\"0970\"" = "09" := by decide
example : parse_u5 "\"2530\"" = "" := by decide
example : parse_i "\"42\"" = "42" := by decide
example : parse_i "abc" = "-1" := by decide
example : parse_f "\"1,5\"" = "1.5" := by decide
example : parse_f "abc" = "-1" := by decide
example : parse_u_m "\"X\"" = "X" := by decide

/-! ### The column schema (download.py:30-88) -/

/-- Table `columns_names_dtypes` (download.py:30-88): the 65 `(name, dtype)` pairs, in index order. -/
def columns_names_dtypes : List (String × String) :=
  [("Region", "U3"),
   ("ID", "=U12"),
   ("Communication type", "i1"),
   ("Communication number", "i4"),
   ("YYYY-MM-DD", "datetime64[D]"),
   ("Weekday", "i1"),
   ("Time", "=U5"),
   ("Accident type", "i1"),
   ("Moving vehicles crash type", "i1"),
   ("Fixed obstacle type", "i1"),
   ("Accident specific", "i1"),
   ("Accident culprit", "i1"),
   ("Culprit alcohol level", "i1"),
   ("Accident main causes", "i2"),
   ("Persons killed", "i1"),
   ("Persons seriously  injured", "i1"),
   ("Persons slightly injured", "i1"),
   ("Total material damage", "i4"),
   ("Road surface type", "i1"),
   ("Road surface condition", "i1"),
   ("Comunication condition", "i1"),
   ("Wind condition", "i1"),
   ("Visibility", "i1"),
   ("Visional condition", "i1"),
   ("Communication division", "i1"),
   ("Accident location", "i1"),
   ("Accident driving management", "i1"),
   ("Driving priotities adjustment", "i1"),
   ("Accident specific objects", "i1"),
   ("Directions conditions", "i1"),
   ("Number of vehicles", "i1"),
   ("Accident city", "i1"),
   ("Cross type", "i1"),
   ("Vehicle type", "i1"),
   ("Vehicle mark", "i1"),
   ("Manufacture year", "i1"),
   ("Vehicle characteristic", "i1"),
   ("Skid", "i1"),
   ("Vehicle after accident", "i1"),
   ("Materials transported", "i1"),
   ("Method of persons reliasing", "i1"),
   ("Direction of driving", "i2"),
   ("Vehicle damage", "i2"),
   ("Driver category", "i1"),
   ("Driver state", "i1"),
   ("External influence", "i1"),
   ("a", "f"),
   ("b", "f"),
   ("GPS:X", "f"),
   ("GPS:Y", "f"),
   ("f", "f"),
   ("g", "f"),
   ("h", "=U22"),
   ("i", "=U22"),
   ("j", "=U22"),
   ("k", "=U22"),
   ("l", "=U22"),
   ("n", "=U22"),
   ("o", "=U22"),
   ("p", "=U22"),
   ("q", "=U22"),
   ("r", "=U22"),
   ("s", "=U22"),
   ("t", "=U22"),
   ("Accident area", "i1")]

/-- The dtype string of schema index `i`. -/
def dtypeOf (i : Nat) : String := (columns_names_dtypes.getD i ("", "")).2

/-- The 65 display names, in schema order (`parse_region_data`'s first
return component, download.py:354). -/
def schemaNames : List String := columns_names_dtypes.map Prod.fst

/-- Dictionary `regions_files` (download.py:93-108): region code to CSV member name. -/
def regions_files : List (String × String) :=
  [("PHA", "00.csv"), ("STC", "01.csv"), ("JHC", "02.csv"), ("PLK", "03.csv"),
   ("ULK", "04.csv"), ("HKK", "05.csv"), ("JHM", "06.csv"), ("MSK", "07.csv"),
   ("OLK", "14.csv"), ("ZLK", "15.csv"), ("VYS", "16.csv"), ("PAK", "17.csv"),
   ("LBK", "18.csv"), ("KVK", "19.csv")]

/-! ### Converter dispatch and the final dtype conversion -/

/-- The converter lambda installed for a column of dtype `d`
(download.py:309-324): integer dtypes get `parse_i(x) or '-1'`, float
dtypes `parse_f(x) or '-1'`, `=U5` gets `parse_u5` (bare, no `or '-1'`),
and everything else — including `=U12`, `=U22` and `datetime64[D]` —
gets `parse_u_m`. -/
def converterFor (d : String) : String → String :=
  if d.take 1 = "i" then fun s => pyOrStr (parse_i s) "-1"
  else if d.take 1 = "f" then fun s => pyOrStr (parse_f s) "-1"
  else if d = "=U5" then parse_u5
  else parse_u_m

/-- The converter applied to raw data column `j` (0-based among the 64 CSV
columns); it is driven by schema index `j+1` because index 0 is the
synthesized region column. -/
def convertCell (j : Nat) (s : String) : String := converterFor (dtypeOf (j + 1)) s

/-- Leap year: `y % 4 == 0 and y % 100 != 0 or y % 400 == 0`. -/
def isLeap (y : Nat) : Bool := (y % 4 = 0 && y % 100 ≠ 0) || y % 400 = 0

/-- Days in month `m` of year `y`. -/
def daysIn (y m : Nat) : Nat :=
  if m = 2 then (if isLeap y then 29 else 28)
  else if m = 4 || m = 6 || m = 9 || m = 11 then 30
  else 31

/-- Two-digit value. -/
def dd (a b : Char) : Nat := 10 * (a.toNat - '0'.toNat) + (b.toNat - '0'.toNat)

/-- Recogniser for strings `numpy.datetime64[D]` accepts: `NaT`, `YYYY`, `YYYY-MM` or
`YYYY-MM-DD` with a calendar-valid month and day. -/
def isoDateOk (s : String) : Bool :=
  match s.data with
  | ['N', 'a', 'T'] => true
  | [a, b, c, d] => [a, b, c, d].all Char.isDigit
  | [a, b, c, d, '-', m1, m2] =>
    [a, b, c, d, m1, m2].all Char.isDigit && 1 ≤ dd m1 m2 && dd m1 m2 ≤ 12
  | [a, b, c, d, '-', m1, m2, '-', d1, d2] =>
    [a, b, c, d, m1, m2, d1, d2].all Char.isDigit &&
      1 ≤ dd m1 m2 && dd m1 m2 ≤ 12 &&
      1 ≤ dd d1 d2 && dd d1 d2 ≤ daysIn (dd a b * 100 + dd c d) (dd m1 m2)
  | _ => false

/-- C-long (64-bit signed) range check: numpy's string-to-integer
conversion goes through a C long. -/
def fitsCLong (n : Int) : Bool := decide (-(2 ^ 63) ≤ n ∧ n < 2 ^ 63)

/-- Conversion of an emitted string to a signed integer dtype: the string
must parse as a Python int and its value must fit a C long; in-range
values are then wrapped into the declared 1/2/4-byte width (2020-era
numpy) without raising, while values beyond the C-long range raise
`OverflowError` in every numpy release. -/
def intConvOk (v : String) : Bool :=
  match pyIntParse v with
  | none => false
  | some n => fitsCLong n

/-- Success of `numpy.loadtxt`'s conversion of the converter-emitted string
to the declared dtype: integer dtypes require a Python-`int`-parsable
string whose value fits the C-long range (see `intConvOk`), float dtypes
a Python-`float`-parsable string, `datetime64[D]` an ISO date, and
fixed-width unicode dtypes always succeed (numpy truncates). -/
def finalConvOk (d : String) (v : String) : Bool :=
  if d.take 1 = "i" then intConvOk v
  else if d.take 1 = "f" then pyFloatOk v
  else if d = "datetime64[D]" then isoDateOk v
  else true

example : isoDateOk "2020-01-01" = true := by decide
example : isoDateOk "not-a-date" = false := by decide
example : finalConvOk "i1" (pyOrStr (parse_i "999") "-1") = true := by decide
example : finalConvOk "i1" (pyOrStr (parse_i "999999999999999999999999999999") "-1") = false := by
  decide
example : finalConvOk "datetime64[D]" (parse_u_m "\"x\"") = false := by decide

/-! ### Data model: rows, archives, tables -/

/-- One raw CSV data row: the semicolon-separated cell texts. -/
abbrev Row := List String

/-- One downloaded ZIP archive: its member files, in `namelist()` order,
each a `(member name, raw rows)` pair. -/
abbrev Archive := List (String × List Row)

/-- The on-disk archive folder after any fetching: the ZIP archives in
`glob` order.  The archive-count heuristic and `download_data` network
side effects (download.py:303-307) are outside this model; `archives` is
the folder content the parsing pass actually sees. -/
structure Env where
  archives : List Archive
deriving DecidableEq, Repr

/-- The `tuple(list[str], list[np.ndarray])` data object: 65 column names
and 65 column arrays.  Column entries are kept as the converter-emitted
strings; the typed array is a function of them and the dtype. -/
structure Table where
  names : List String
  cols : List (List String)
deriving DecidableEq, Repr

/-- Exceptions the pipeline can raise. -/
inductive PyErr where
  /-- `NotImplementedError(f"ERROR: {region} not found")` (download.py:301). -/
  | notImplementedRegion (region : String)
  /-- `NotImplementedError(f"ERROR: {regions} not found")` (download.py:520);
  carries the requested region list the message interpolates. -/
  | notImplementedRegions (regions : List String)
  /-- `AttributeError`: `columns_data` is still `None` at
  `columns_data.insert(0, ...)` because no archive member matched
  (download.py:348). -/
  | attributeNone
  /-- `ValueError` from `numpy.loadtxt`: a row has fewer than the 64
  requested columns, or a converter-emitted cell fails dtype conversion. -/
  | valueError
  /-- `TypeError`: `output` is still `None` at `len(output[1])`
  (download.py:527). -/
  | typeErrorNone
deriving DecidableEq, Repr

/-- The archive members whose name matches the region's file name, in
archive-by-archive, member-by-member order (download.py:328-331). -/
def matchedMembers (env : Env) (fname : String) : List (List Row) :=
  env.archives.flatMap (fun a => (a.filter (fun m => m.1 = fname)).map Prod.snd)

/-- All data rows of the matching members, in insertion order. -/
def matchedRows (env : Env) (fname : String) : List Row :=
  (matchedMembers env fname).flatten

/-- Success of `numpy.loadtxt` on one raw row: at least the 64 requested
columns are present and every converter-emitted cell converts to its
declared dtype. -/
def rowOk (r : Row) : Bool :=
  decide (64 ≤ r.length) &&
    (List.range 64).all (fun j => finalConvOk (dtypeOf (j + 1)) (convertCell j (r.getD j "")))

/-- The 64 data columns: column `j` is the converter output for cell `j`
of every row, rows in insertion order. -/
def dataCols (rows : List Row) : List (List String) :=
  (List.range 64).map (fun j => rows.map (fun r => convertCell j (r.getD j "")))

/-- Method `DataDownloader.parse_region_data` (download.py:273-354):
resolve the region's file name (raising for unsupported regions before
touching the folder), load and convert every matching member's rows,
concatenate them archive-by-archive, and prepend the constant
region-code column. -/
def parse_region_data (env : Env) (region : String) : Except PyErr Table :=
  match List.lookup region regions_files with
  | none => .error (.notImplementedRegion region)
  | some fname =>
    if (matchedMembers env fname).isEmpty then .error .attributeNone
    else
      let rows := matchedRows env fname
      if rows.all rowOk then
        .ok ⟨schemaNames, List.replicate rows.length region :: dataCols rows⟩
      else .error .valueError

/-! ### Cache state and `get_list` -/

/-- Per-instance state: `regions_cache` (region code to data object, absent
key modelling the `None` entry) and the per-region compressed cache files
(keyed by region code — the filename template is injective in the code).
Association lists are most-recent-first; `List.lookup` takes the first
binding. -/
structure DState where
  progCache : List (String × Table)
  fileCache : List (String × Table)
deriving DecidableEq, Repr

/-- The fresh state of a new `DataDownloader` with an empty folder. -/
def freshState : DState := ⟨[], []⟩

/-- Resolution of one region inside `get_list` (download.py:496-511):
program-cache hit, else file-cache hit (pickle load, modelled as faithful
retrieval), else build via `parse_region_data` and persist to both. -/
def resolveRegion (env : Env) (st : DState) (r : String) :
    Except PyErr (DState × Table) :=
  match List.lookup r st.progCache with
  | some t => .ok (st, t)
  | none =>
    match List.lookup r st.fileCache with
    | some t => .ok ({ st with progCache := (r, t) :: st.progCache }, t)
    | none =>
      match parse_region_data env r with
      | .error e => .error e
      | .ok t => .ok (⟨(r, t) :: st.progCache, (r, t) :: st.fileCache⟩, t)

/-- Columnwise concatenation `output[1][j] = concatenate((output[1][j],
cache[i][1][j]))` over all 65 columns; names stay the accumulator's. -/
def concatT (a b : Table) : Table :=
  ⟨a.names, List.zipWith (· ++ ·) a.cols b.cols⟩

/-- The region loop of `get_list` (download.py:495-518).  The accumulator
is the pair (first region, its running table); because `output` aliases
the first region's `regions_cache` tuple and the concatenation assigns
into that tuple's column list in place, every concatenation step also
rebinds the first region's program-cache entry to the grown table. -/
def getLoop (env : Env) : List String → DState → Option (String × Table) →
    Except PyErr (DState × Option (String × Table))
  | [], st, acc => .ok (st, acc)
  | r :: rs, st, acc =>
    match resolveRegion env st r with
    | .error e => .error e
    | .ok (st1, t) =>
      match acc with
      | none => getLoop env rs st1 (some (r, t))
      | some (r0, out) =>
        let out1 := concatT out t
        getLoop env rs { st1 with progCache := (r0, out1) :: st1.progCache }
          (some (r0, out1))

/-- The 14 region codes in declaration order (`for i in regions_files`). -/
def allRegionsOrder : List String := regions_files.map Prod.fst

/-- Method `DataDownloader.get_list` (download.py:449-530): `None` means
all 14 regions; an explicit list is validated against `regions_files`
before any cache or archive access; the final log loop dereferences
`output[1]`, raising `TypeError` when no region was processed. -/
def get_list (env : Env) (st : DState) (regions : Option (List String)) :
    Except PyErr (DState × Table) :=
  match regions with
  | none =>
    match getLoop env allRegionsOrder st none with
    | .error e => .error e
    | .ok (_, none) => .error .typeErrorNone
    | .ok (st1, some (_, out)) => .ok (st1, out)
  | some regs =>
    if regs.all (fun r => (List.lookup r regions_files).isSome) then
      match getLoop env regs st none with
      | .error e => .error e
      | .ok (_, none) => .error .typeErrorNone
      | .ok (st1, some (_, out)) => .ok (st1, out)
    else .error (.notImplementedRegions regs)

/-- Resolution of one region against the initial file cache of a fresh
instance (empty program cache): the cache-file table when the file
exists, else the freshly built table; `none` when the build raises.
This is the table `get_list` obtains for that region on first touch. -/
def resolveT (env : Env) (f : List (String × Table)) (r : String) :
    Option Table :=
  match List.lookup r f with
  | some t => some t
  | none =>
    match parse_region_data env r with
    | .ok t => some t
    | .error _ => none

/-! ### Sanity checks on a miniature environment -/

/-- One well-formed raw row: 64 cells, with an ISO date in data column 3
(schema index 4, the `datetime64[D]` column). -/
def wRow : Row := List.replicate 3 "1" ++ ["2020-01-01"] ++ List.replicate 60 "1"

/-- Second distinguishable well-formed row. -/
def wRow2 : Row := List.replicate 3 "7" ++ ["2021-12-31"] ++ List.replicate 60 "7"

/-- Miniature folder: one archive holding the STC member (2 rows) and the
MSK member (1 row). -/
def wEnv : Env := ⟨[[("01.csv", [wRow, wRow2]), ("07.csv", [wRow])]]⟩

example : (matchedRows wEnv "01.csv").length = 2 := by decide
example : rowOk wRow = true := by decide

/-- Row count of a table: the length of its first column (the tables this
pipeline produces have all 65 columns of equal length). -/
def rowCount (t : Table) : Nat := (t.cols.headD []).length

/-- The table the builder produces for STC on `wEnv`. -/
def wTSTC : Table := ⟨schemaNames, List.replicate 2 "STC" :: dataCols [wRow, wRow2]⟩

/-- The table the builder produces for MSK on `wEnv`. -/
def wTMSK : Table := ⟨schemaNames, List.replicate 1 "MSK" :: dataCols [wRow]⟩

example : parse_region_data wEnv "STC" = .ok wTSTC := rfl
example : parse_region_data wEnv "MSK" = .ok wTMSK := rfl

/-! ## Helper lemmas -/

section Helpers

theorem filter_idem (p : Char → Bool) (l : List Char) :
    (l.filter p).filter p = l.filter p := by
  rw [List.filter_filter]
  apply List.filter_congr
  intro a _
  cases p a <;> rfl

theorem stripQuotes_idem (s : String) :
    stripQuotes (stripQuotes s) = stripQuotes s := by
  unfold stripQuotes
  exact congrArg String.mk (filter_idem _ _)

theorem commaDot_commaDot (s : String) : commaDot (commaDot s) = commaDot s := by
  unfold commaDot
  apply congrArg String.mk
  rw [List.map_map]
  apply List.map_congr_left
  intro a _
  by_cases h : a = ',' <;> simp [h, Function.comp]

theorem stripQuotes_commaDot (s : String) :
    stripQuotes (commaDot (stripQuotes s)) = commaDot (stripQuotes s) := by
  unfold stripQuotes commaDot
  apply congrArg String.mk
  rw [List.filter_eq_self]
  intro a ha
  obtain ⟨x, hx, rfl⟩ := List.mem_map.mp ha
  have hxq : (x ≠ '"') := by
    have := (List.mem_filter.mp hx).2
    simpa using this
  by_cases h : x = ',' <;> simp [h, hxq]

theorem pyIntParse_empty : pyIntParse "" = none := rfl

theorem pyFloatOk_empty : pyFloatOk "" = false := rfl

theorem pyIntParse_ne_empty (s : String) (h : (pyIntParse s).isSome) : s ≠ "" := by
  intro hs
  rw [hs, pyIntParse_empty] at h
  cases h

theorem pyFloatOk_ne_empty (s : String) (h : pyFloatOk s = true) : s ≠ "" := by
  intro hs
  rw [hs, pyFloatOk_empty] at h
  cases h

theorem digitsVal_none_of_mem (c : Char) (hc : c.isDigit = false) (l : List Char)
    (h : c ∈ l) : digitsVal l = none := by
  unfold digitsVal
  rw [if_neg]
  rintro ⟨-, hall⟩
  have := List.all_eq_true.mp hall c h
  rw [hc] at this
  cases this

theorem pyIntCore_none_of_colon (l : List Char) (h : (':' : Char) ∈ l) :
    pyIntCore l = none := by
  cases l with
  | nil => rfl
  | cons c rest =>
    show (if c = '+' then (digitsVal rest).map Int.ofNat
      else if c = '-' then (digitsVal rest).map (fun n => -(n : Int))
      else (digitsVal (c :: rest)).map Int.ofNat) = none
    by_cases hp : c = '+'
    · rw [if_pos hp]
      have h2 : (':' : Char) ∈ rest := by
        rcases List.mem_cons.mp h with h1 | h1
        · rw [hp] at h1; exact absurd h1 (by decide)
        · exact h1
      rw [digitsVal_none_of_mem ':' (by decide) rest h2]
      rfl
    · rw [if_neg hp]
      by_cases hm : c = '-'
      · rw [if_pos hm]
        have h2 : (':' : Char) ∈ rest := by
          rcases List.mem_cons.mp h with h1 | h1
          · rw [hm] at h1; exact absurd h1 (by decide)
          · exact h1
        rw [digitsVal_none_of_mem ':' (by decide) rest h2]
        rfl
      · rw [if_neg hm]
        rw [digitsVal_none_of_mem ':' (by decide) _ h]
        rfl

theorem mem_dropWhile_of (p : Char → Bool) (c : Char) (hc : p c = false)
    (l : List Char) (h : c ∈ l) : c ∈ l.dropWhile p := by
  induction l with
  | nil => cases h
  | cons a t ih =>
    rw [List.dropWhile_cons]
    by_cases hpa : p a = true
    · rw [if_pos hpa]
      rcases List.mem_cons.mp h with h1 | h1
      · rw [h1, hpa] at hc; cases hc
      · exact ih h1
    · rw [if_neg hpa]
      exact h

theorem mem_stripWsL (c : Char) (hc : isPyWs c = false) (l : List Char)
    (h : c ∈ l) : c ∈ stripWsL l := by
  unfold stripWsL
  rw [List.mem_reverse]
  apply mem_dropWhile_of _ _ hc
  rw [List.mem_reverse]
  exact mem_dropWhile_of _ _ hc _ h

theorem pyIntParse_none_of_colon (s : String) (h : (':' : Char) ∈ s.data) :
    pyIntParse s = none := by
  unfold pyIntParse pyIntParseL
  exact pyIntCore_none_of_colon _ (mem_stripWsL ':' (by decide) _ h)

theorem pySlice_len (s : String) (a b : Nat) :
    (pySlice s a b).data.length ≤ b - a := by
  unfold pySlice
  exact List.length_take_le _ _

theorem string_eq_empty_of_data (s : String) (h : s.data = []) : s = "" := by
  cases s with
  | mk d => exact congrArg String.mk h

theorem pyIntParse_data_ne_nil (s : String) (h : (pyIntParse s).isSome) :
    s.data ≠ [] := by
  intro h0
  exact pyIntParse_ne_empty s h (string_eq_empty_of_data s h0)

theorem parse_i_of_some (s : String) (h : (pyIntParse (stripQuotes s)).isSome) :
    parse_i s = stripQuotes s := by
  unfold parse_i
  rw [if_pos h]

theorem parse_i_of_none (s : String) (h : pyIntParse (stripQuotes s) = none) :
    parse_i s = "-1" := by
  unfold parse_i
  rw [h]
  rfl

theorem parse_i_idem (s : String) : parse_i (parse_i s) = parse_i s := by
  by_cases h : (pyIntParse (stripQuotes s)).isSome
  · rw [parse_i_of_some s h]
    unfold parse_i
    rw [stripQuotes_idem, if_pos h]
  · have h1 : parse_i s = "-1" := by unfold parse_i; rw [if_neg h]
    rw [h1]
    decide

theorem parse_f_idem (s : String) : parse_f (parse_f s) = parse_f s := by
  by_cases h : pyFloatOk (commaDot (stripQuotes s)) = true
  · have h1 : parse_f s = commaDot (stripQuotes s) := by unfold parse_f; rw [if_pos h]
    rw [h1]
    unfold parse_f
    rw [stripQuotes_commaDot, commaDot_commaDot, if_pos h]
  · have h1 : parse_f s = "-1" := by
      unfold parse_f
      rw [if_neg h]
    rw [h1]
    decide

theorem parse_um_idem (s : String) : parse_u_m (parse_u_m s) = parse_u_m s :=
  stripQuotes_idem s

theorem parse_u5_eq_none (s : String) (h : pyIntParse (pySlice s 1 3) = none) :
    parse_u5 s = "" := by
  unfold parse_u5
  rw [h]

theorem parse_u5_eq_hoursBig (s : String) (hv : Int)
    (hH : pyIntParse (pySlice s 1 3) = some hv) (h24 : 24 < hv) :
    parse_u5 s = "" := by
  simp only [parse_u5, hH]
  rw [if_pos h24]

theorem parse_u5_eq_minNone (s : String) (hv : Int)
    (hH : pyIntParse (pySlice s 1 3) = some hv) (h24 : hv ≤ 24)
    (hM : pyIntParse (pySlice s 3 5) = none) : parse_u5 s = "" := by
  simp only [parse_u5, hH, hM]
  rw [if_neg (not_lt.mpr h24)]

theorem parse_u5_eq_hours (s : String) (hv mv : Int)
    (hH : pyIntParse (pySlice s 1 3) = some hv) (h24 : hv ≤ 24)
    (hM : pyIntParse (pySlice s 3 5) = some mv) (h59 : 59 < mv) :
    parse_u5 s = pySlice s 1 3 := by
  simp only [parse_u5, hH, hM]
  rw [if_neg (not_lt.mpr h24), if_pos h59]

theorem parse_u5_eq_full (s : String) (hv mv : Int)
    (hH : pyIntParse (pySlice s 1 3) = some hv) (h24 : hv ≤ 24)
    (hM : pyIntParse (pySlice s 3 5) = some mv) (h59 : mv ≤ 59) :
    parse_u5 s = pySlice s 1 3 ++ ":" ++ pySlice s 3 5 := by
  simp only [parse_u5, hH, hM]
  rw [if_neg (not_lt.mpr h24), if_neg (not_lt.mpr h59)]

theorem u5_of_short (y : String) (h : y.data.length ≤ 3) : parse_u5 y = "" := by
  have h35 : pySlice y 3 5 = "" := by
    unfold pySlice
    rw [List.drop_eq_nil_of_le h]
    rfl
  cases hH : pyIntParse (pySlice y 1 3) with
  | none => exact parse_u5_eq_none y hH
  | some hv =>
    by_cases h24 : 24 < hv
    · exact parse_u5_eq_hoursBig y hv hH h24
    · apply parse_u5_eq_minNone y hv hH (not_lt.mp h24)
      rw [h35]
      rfl

theorem data_of_hhmm (a m : String) :
    (a ++ ":" ++ m).data = a.data ++ ':' :: m.data := by
  rw [String.data_append, String.data_append]
  simp

theorem parse_u5_parse_u5 (s : String) : parse_u5 (parse_u5 s) = "" := by
  cases hH : pyIntParse (pySlice s 1 3) with
  | none =>
    rw [parse_u5_eq_none s hH]
    rfl
  | some hv =>
    by_cases h24 : 24 < hv
    · rw [parse_u5_eq_hoursBig s hv hH h24]
      rfl
    · cases hM : pyIntParse (pySlice s 3 5) with
      | none =>
        rw [parse_u5_eq_minNone s hv hH (not_lt.mp h24) hM]
        rfl
      | some mv =>
        by_cases h59 : 59 < mv
        · rw [parse_u5_eq_hours s hv mv hH (not_lt.mp h24) hM h59]
          exact u5_of_short _ (le_trans (pySlice_len s 1 3) (by norm_num))
        · rw [parse_u5_eq_full s hv mv hH (not_lt.mp h24) hM (not_lt.mp h59)]
          apply parse_u5_eq_none
          apply pyIntParse_none_of_colon
          have hne : (pySlice s 1 3).data ≠ [] := by
            apply pyIntParse_data_ne_nil
            rw [hH]
            rfl
          have hlen : (pySlice s 1 3).data.length ≤ 2 := pySlice_len s 1 3
          show (':' : Char) ∈
            ((pySlice s 1 3 ++ ":" ++ pySlice s 3 5).data.drop 1).take 2
          rw [data_of_hhmm]
          cases hd : (pySlice s 1 3).data with
          | nil => exact absurd hd hne
          | cons a tl =>
            cases tl with
            | nil => simp
            | cons b tl2 =>
              have h2 : tl2 = [] := by
                rw [hd] at hlen
                simp only [List.length_cons] at hlen
                exact List.length_eq_zero.mp (by omega)
              rw [h2]
              simp

theorem parse_i_out_ok (s : String) :
    (pyIntParse (pyOrStr (parse_i s) "-1")).isSome = true := by
  unfold pyOrStr
  by_cases h : (pyIntParse (stripQuotes s)).isSome
  · rw [parse_i_of_some s h, if_neg (pyIntParse_ne_empty _ h)]
    exact h
  · have h1 : parse_i s = "-1" := by unfold parse_i; rw [if_neg h]
    rw [h1]
    decide

theorem parse_f_out_ok (s : String) :
    pyFloatOk (pyOrStr (parse_f s) "-1") = true := by
  unfold pyOrStr
  by_cases h : pyFloatOk (commaDot (stripQuotes s)) = true
  · have h1 : parse_f s = commaDot (stripQuotes s) := by unfold parse_f; rw [if_pos h]
    rw [h1, if_neg (pyFloatOk_ne_empty _ h)]
    exact h
  · have h1 : parse_f s = "-1" := by unfold parse_f; rw [if_neg h]
    rw [h1]
    decide

theorem converterFor_i (d : String) (hi : d.take 1 = "i") (s : String) :
    converterFor d s = pyOrStr (parse_i s) "-1" := by
  unfold converterFor
  rw [if_pos hi]

theorem converterFor_f (d : String) (hi : d.take 1 ≠ "i") (hf : d.take 1 = "f")
    (s : String) : converterFor d s = pyOrStr (parse_f s) "-1" := by
  unfold converterFor
  rw [if_neg hi, if_pos hf]

theorem finalConv_i (d v : String) (hi : d.take 1 = "i") :
    finalConvOk d v = intConvOk v := by
  unfold finalConvOk
  rw [if_pos hi]

theorem finalConv_f (d v : String) (hi : d.take 1 ≠ "i") (hf : d.take 1 = "f") :
    finalConvOk d v = pyFloatOk v := by
  unfold finalConvOk
  rw [if_neg hi, if_pos hf]

theorem finalConv_other (d v : String) (hi : d.take 1 ≠ "i")
    (hf : d.take 1 ≠ "f") (hd : d ≠ "datetime64[D]") : finalConvOk d v = true := by
  unfold finalConvOk
  rw [if_neg hi, if_neg hf, if_neg hd]

theorem finalConv_nonint_total (d : String) (hi : d.take 1 ≠ "i")
    (hd : d ≠ "datetime64[D]") (s : String) :
    finalConvOk d (converterFor d s) = true := by
  by_cases hf : d.take 1 = "f"
  · rw [finalConv_f d _ hi hf, converterFor_f d hi hf]
    exact parse_f_out_ok s
  · exact finalConv_other d _ hi hf hd

/-! ### Builder and aggregator stepping lemmas -/

theorem parse_ok_shape (env : Env) (r : String) (t : Table)
    (h : parse_region_data env r = .ok t) :
    ∃ fname, List.lookup r regions_files = some fname ∧
      t = ⟨schemaNames,
        List.replicate (matchedRows env fname).length r ::
          dataCols (matchedRows env fname)⟩ := by
  unfold parse_region_data at h
  cases hl : List.lookup r regions_files with
  | none => rw [hl] at h; cases h
  | some fname =>
    rw [hl] at h
    dsimp only at h
    refine ⟨fname, rfl, ?_⟩
    by_cases he : (matchedMembers env fname).isEmpty = true
    · rw [if_pos he] at h; cases h
    · rw [if_neg he] at h
      by_cases hr : (matchedRows env fname).all rowOk = true
      · rw [if_pos hr] at h
        cases h
        rfl
      · rw [if_neg hr] at h; cases h

theorem parse_ok_valid (env : Env) (r : String) (t : Table)
    (h : parse_region_data env r = .ok t) :
    (List.lookup r regions_files).isSome = true := by
  obtain ⟨fname, hl, -⟩ := parse_ok_shape env r t h
  rw [hl]
  rfl

theorem dataCols_length (rows : List Row) : (dataCols rows).length = 64 := by
  unfold dataCols
  rw [List.length_map, List.length_range]

theorem dataCols_mem_length (rows : List Row) (c : List String)
    (h : c ∈ dataCols rows) : c.length = rows.length := by
  unfold dataCols at h
  obtain ⟨j, -, rfl⟩ := List.mem_map.mp h
  rw [List.length_map]

theorem parse_ok_cols (env : Env) (r : String) (t : Table)
    (h : parse_region_data env r = .ok t) :
    ∃ n cs, t.cols = List.replicate n r :: cs ∧ cs.length = 64 ∧
      ∀ c ∈ cs, c.length = n := by
  obtain ⟨fname, -, rfl⟩ := parse_ok_shape env r t h
  exact ⟨(matchedRows env fname).length, dataCols (matchedRows env fname), rfl,
    dataCols_length _, fun c hc => dataCols_mem_length _ c hc⟩

theorem lookup_cons_ne {β : Type} (a k : String) (v : β) (l : List (String × β))
    (h : a ≠ k) : List.lookup a ((k, v) :: l) = List.lookup a l := by
  have hb : (a == k) = false := beq_eq_false_iff_ne.mpr h
  simp [List.lookup, hb]

theorem lookup_cons_self {β : Type} (k : String) (v : β) (l : List (String × β)) :
    List.lookup k ((k, v) :: l) = some v := by
  simp [List.lookup]

theorem resolve_miss (env : Env) (p f : List (String × Table)) (r : String)
    (t : Table) (h1 : List.lookup r p = none) (h2 : List.lookup r f = none)
    (h3 : parse_region_data env r = .ok t) :
    resolveRegion env ⟨p, f⟩ r = .ok (⟨(r, t) :: p, (r, t) :: f⟩, t) := by
  unfold resolveRegion
  dsimp only
  rw [h1, h2, h3]

theorem resolve_hitProg (env : Env) (st : DState) (r : String) (t : Table)
    (h : List.lookup r st.progCache = some t) :
    resolveRegion env st r = .ok (st, t) := by
  unfold resolveRegion
  rw [h]

theorem resolve_hitFile (env : Env) (p f : List (String × Table)) (r : String)
    (t : Table) (h1 : List.lookup r p = none) (h2 : List.lookup r f = some t) :
    resolveRegion env ⟨p, f⟩ r = .ok (⟨(r, t) :: p, f⟩, t) := by
  unfold resolveRegion
  dsimp only
  rw [h1, h2]

theorem getLoop_cons_none (env : Env) (st st1 : DState) (r : String)
    (rs : List String) (t : Table)
    (h : resolveRegion env st r = .ok (st1, t)) :
    getLoop env (r :: rs) st none = getLoop env rs st1 (some (r, t)) := by
  have e : getLoop env (r :: rs) st none =
      (match resolveRegion env st r with
       | .error e => .error e
       | .ok (st1, t) => getLoop env rs st1 (some (r, t))) := rfl
  rw [e, h]

theorem getLoop_cons_some (env : Env) (st : DState)
    (p1 f1 : List (String × Table)) (r r0 : String) (rs : List String)
    (t out : Table) (h : resolveRegion env st r = .ok (⟨p1, f1⟩, t)) :
    getLoop env (r :: rs) st (some (r0, out)) =
      getLoop env rs ⟨(r0, concatT out t) :: p1, f1⟩
        (some (r0, concatT out t)) := by
  have e : getLoop env (r :: rs) st (some (r0, out)) =
      (match resolveRegion env st r with
       | .error e => .error e
       | .ok (st1, t) =>
         getLoop env rs { st1 with progCache := (r0, concatT out t) :: st1.progCache }
           (some (r0, concatT out t))) := rfl
  rw [e, h]

theorem get_list_of_valid (env : Env) (st st1 : DState) (regs : List String)
    (r0 : String) (out : Table)
    (hv : regs.all (fun r => (List.lookup r regions_files).isSome) = true)
    (h : getLoop env regs st none = .ok (st1, some (r0, out))) :
    get_list env st (some regs) = .ok (st1, out) := by
  unfold get_list
  dsimp only
  rw [if_pos hv, h]

theorem all_false_of_mem (p : String → Bool) (l : List String) (a : String)
    (h1 : a ∈ l) (h2 : p a = false) : l.all p = false := by
  induction l with
  | nil => cases h1
  | cons b t ih =>
    rw [List.all_cons]
    rcases List.mem_cons.mp h1 with h3 | h3
    · rw [← h3, h2]
      rfl
    · rw [ih h3]
      cases p b <;> rfl

theorem concatT_head (t1 t2 : Table) (c1 c2 : List String)
    (cs1 cs2 : List (List String)) (h1 : t1.cols = c1 :: cs1)
    (h2 : t2.cols = c2 :: cs2) :
    (concatT t1 t2).cols = (c1 ++ c2) :: List.zipWith (· ++ ·) cs1 cs2 := by
  unfold concatT
  rw [h1, h2]
  rfl

theorem parse_i_ne_empty (s : String) : parse_i s ≠ "" := by
  unfold parse_i
  by_cases h : (pyIntParse (stripQuotes s)).isSome
  · rw [if_pos h]
    exact pyIntParse_ne_empty _ h
  · rw [if_neg h]
    decide

theorem resolveT_congr (env : Env) (f f2 : List (String × Table)) (r : String)
    (hf : List.lookup r f2 = List.lookup r f) :
    resolveT env f2 r = resolveT env f r := by
  unfold resolveT
  rw [hf]

theorem resolveRegion_resolveT (env : Env) (p f : List (String × Table))
    (r : String) (t : Table) (hp : List.lookup r p = none)
    (h : resolveT env f r = some t) :
    resolveRegion env ⟨p, f⟩ r = .ok (⟨(r, t) :: p, f⟩, t) ∨
    resolveRegion env ⟨p, f⟩ r = .ok (⟨(r, t) :: p, (r, t) :: f⟩, t) := by
  unfold resolveT at h
  cases hf : List.lookup r f with
  | some t2 =>
    rw [hf] at h
    dsimp only at h
    injection h with h2
    subst h2
    left
    exact resolve_hitFile env p f r t2 hp hf
  | none =>
    rw [hf] at h
    dsimp only at h
    cases hb : parse_region_data env r with
    | error e =>
      rw [hb] at h
      cases h
    | ok t2 =>
      rw [hb] at h
      dsimp only at h
      injection h with h2
      subst h2
      right
      exact resolve_miss env p f r t2 hp hf hb

theorem getLoop_resolveT (env : Env) (f : List (String × Table)) :
    ∀ (rs : List String) (ts : List Table),
      List.Forall₂ (fun r t => resolveT env f r = some t) rs ts →
      ∀ (r0 : String) (out : Table) (p2 f2 : List (String × Table)),
        (∀ r ∈ rs, r0 ≠ r) →
        rs.Pairwise (fun a b => a ≠ b) →
        (∀ r ∈ rs, List.lookup r p2 = none) →
        (∀ r ∈ rs, List.lookup r f2 = List.lookup r f) →
        List.lookup r0 p2 = some out →
        ∃ p3 f3,
          getLoop env rs ⟨p2, f2⟩ (some (r0, out)) =
            .ok (⟨p3, f3⟩, some (r0, ts.foldl concatT out)) ∧
          List.lookup r0 p3 = some (ts.foldl concatT out) := by
  intro rs
  induction rs with
  | nil =>
    intro ts hres r0 out p2 f2 _ _ _ _ hr0
    cases hres
    exact ⟨p2, f2, rfl, hr0⟩
  | cons r rs2 ih =>
    intro ts hres r0 out p2 f2 hd0 hnd hp hf hr0
    cases ts with
    | nil => cases hres
    | cons t ts2 =>
      have hrt : resolveT env f r = some t := by
        cases hres with | cons h1 h2 => exact h1
      have hres2 : List.Forall₂ (fun r t => resolveT env f r = some t) rs2 ts2 := by
        cases hres with | cons h1 h2 => exact h2
      have hndr : ∀ x ∈ rs2, r ≠ x := by
        cases hnd with | cons h1 h2 => exact h1
      have hnd2 : rs2.Pairwise (fun a b => a ≠ b) := by
        cases hnd with | cons h1 h2 => exact h2
      have hp_r : List.lookup r p2 = none := hp r (List.mem_cons_self r rs2)
      have hf_r : List.lookup r f2 = List.lookup r f := hf r (List.mem_cons_self r rs2)
      have hres_r : resolveT env f2 r = some t := by
        rw [resolveT_congr env f f2 r hf_r]
        exact hrt
      have hd0' : ∀ x ∈ rs2, r0 ≠ x :=
        fun x hx => hd0 x (List.mem_cons_of_mem r hx)
      have hr0' : List.lookup r0 ((r0, concatT out t) :: (r, t) :: p2) =
          some (concatT out t) := lookup_cons_self r0 _ _
      have hp' : ∀ x ∈ rs2,
          List.lookup x ((r0, concatT out t) :: (r, t) :: p2) = none := by
        intro x hx
        rw [lookup_cons_ne x r0 _ _ (Ne.symm (hd0 x (List.mem_cons_of_mem r hx))),
          lookup_cons_ne x r _ _ (Ne.symm (hndr x hx))]
        exact hp x (List.mem_cons_of_mem r hx)
      rcases resolveRegion_resolveT env p2 f2 r t hp_r hres_r with hcase | hcase
      · rw [getLoop_cons_some env ⟨p2, f2⟩ ((r, t) :: p2) f2 r r0 rs2 t out hcase]
        have hf' : ∀ x ∈ rs2, List.lookup x f2 = List.lookup x f :=
          fun x hx => hf x (List.mem_cons_of_mem r hx)
        obtain ⟨p3, f3, heq, hlook⟩ :=
          ih ts2 hres2 r0 (concatT out t) _ f2 hd0' hnd2 hp' hf' hr0'
        refine ⟨p3, f3, ?_, ?_⟩
        · rw [List.foldl_cons]
          exact heq
        · rw [List.foldl_cons]
          exact hlook
      · rw [getLoop_cons_some env ⟨p2, f2⟩ ((r, t) :: p2) ((r, t) :: f2) r r0 rs2
          t out hcase]
        have hf' : ∀ x ∈ rs2, List.lookup x ((r, t) :: f2) = List.lookup x f := by
          intro x hx
          rw [lookup_cons_ne x r t f2 (Ne.symm (hndr x hx))]
          exact hf x (List.mem_cons_of_mem r hx)
        obtain ⟨p3, f3, heq, hlook⟩ :=
          ih ts2 hres2 r0 (concatT out t) _ ((r, t) :: f2) hd0' hnd2 hp' hf' hr0'
        refine ⟨p3, f3, ?_, ?_⟩
        · rw [List.foldl_cons]
          exact heq
        · rw [List.foldl_cons]
          exact hlook

end Helpers

/-! ## Claim theorems -/

/-- Claim C1, counterexample to the original statement, which fails twice:
the calendar-date column is raw data column 3 (schema index 4, dtype
`datetime64[D]`), its repair is bare quote-stripping, so `"not-a-date"`
reaches the final conversion unchanged and the conversion raises; and the
1-byte integer column 1 (schema index 2, dtype `i1`) raises
`OverflowError` on a beyond-C-long digit string that `parse_i` passes
through unchanged — numpy only ever wraps within the 64-bit C-long
range. -/
theorem c1_original_fails :
    finalConvOk (dtypeOf (3 + 1)) (convertCell 3 "\"not-a-date\"") = false ∧
    finalConvOk (dtypeOf (1 + 1))
      (convertCell 1 "999999999999999999999999999999") = false := by
  constructor
  · decide
  · decide

/-- Claim C1 (amended): converting the repair output to the final declared
type never raises for float, clock-time and unicode columns; for integer
columns the emitted text always parses, and the conversion succeeds
exactly when the parsed value fits the 64-bit C-long range (in-range
values wrap into the declared 1/2/4-byte width rather than raising, but
the repair passes any base-10-parsable text through, so a beyond-64-bit
digit string raises `OverflowError`); and the calendar-date column — the
unique `datetime64[D]` column, raw data column 3 — can raise because its
repair is bare quote-stripping. -/
theorem c1_amended_ok :
    (∀ j s, (dtypeOf (j + 1)).take 1 ≠ "i" → dtypeOf (j + 1) ≠ "datetime64[D]" →
      finalConvOk (dtypeOf (j + 1)) (convertCell j s) = true) ∧
    (∀ j s, (dtypeOf (j + 1)).take 1 = "i" →
      (pyIntParse (convertCell j s)).isSome = true) ∧
    (∀ j s n, (dtypeOf (j + 1)).take 1 = "i" →
      pyIntParse (convertCell j s) = some n →
      finalConvOk (dtypeOf (j + 1)) (convertCell j s) = fitsCLong n) ∧
    (∀ j, j < 64 → (dtypeOf (j + 1) = "datetime64[D]" ↔ j = 3)) := by
  refine ⟨?_, ?_, ?_, by decide⟩
  · intro j s hi hd
    exact finalConv_nonint_total _ hi hd s
  · intro j s hi
    rw [show convertCell j s = pyOrStr (parse_i s) "-1" from
      converterFor_i _ hi s]
    exact parse_i_out_ok s
  · intro j s n hi hn
    rw [finalConv_i _ _ hi]
    unfold intConvOk
    rw [hn]

/-- Witness for C1 (amended): the unicode data column 0, the 1-byte
column 1 at an in-range cell, and the date column's uniqueness. -/
theorem c1_amended_ok_witness :
    finalConvOk (dtypeOf (0 + 1)) (convertCell 0 "\"abc\"") = true ∧
    (pyIntParse (convertCell 1 "\"5\"")).isSome = true ∧
    finalConvOk (dtypeOf (1 + 1)) (convertCell 1 "\"5\"") = fitsCLong 5 ∧
    (dtypeOf (3 + 1) = "datetime64[D]" ↔ 3 = 3) :=
  ⟨c1_amended_ok.1 0 "\"abc\"" (by decide) (by decide),
   c1_amended_ok.2.1 1 "\"5\"" (by decide),
   c1_amended_ok.2.2.1 1 "\"5\"" 5 (by decide) (by decide),
   c1_amended_ok.2.2.2 3 (by decide)⟩

/-- Claim C2, counterexample to the original statement: on hours > 24 the
clock-time repair returns the empty string, not the sentinel `"-1"` (and
its converter has no `or '-1'` wrapper that could restore it). -/
theorem c2_original_fails :
    parse_u5 "\"2530\"" = "" ∧ parse_u5 "\"2530\"" ≠ "-1" := by
  constructor
  · decide
  · decide

/-- Claim C2 (amended): the clock-time repair returns the empty string
`""` — not the sentinel `"-1"` — when hours > 24 or when parsing raises,
returns the two hour characters alone when minutes > 59, and otherwise
returns `"HH:MM"`; in particular `repair("\x222530\x22") = ""`,
`repair("\x220970\x22") = "09"` and `repair("\x220845\x22") = "08:45"`. -/
theorem c2_amended_ok :
    (parse_u5 "\"2530\"" = "" ∧ parse_u5 "\"0970\"" = "09" ∧
      parse_u5 "\"0845\"" = "08:45") ∧
    (∀ s, pyIntParse (pySlice s 1 3) = none → parse_u5 s = "") ∧
    (∀ s hv, pyIntParse (pySlice s 1 3) = some hv → 24 < hv →
      parse_u5 s = "") ∧
    (∀ s hv, pyIntParse (pySlice s 1 3) = some hv → hv ≤ 24 →
      pyIntParse (pySlice s 3 5) = none → parse_u5 s = "") ∧
    (∀ s hv mv, pyIntParse (pySlice s 1 3) = some hv → hv ≤ 24 →
      pyIntParse (pySlice s 3 5) = some mv → 59 < mv →
      parse_u5 s = pySlice s 1 3) ∧
    (∀ s hv mv, pyIntParse (pySlice s 1 3) = some hv → hv ≤ 24 →
      pyIntParse (pySlice s 3 5) = some mv → mv ≤ 59 →
      parse_u5 s = pySlice s 1 3 ++ ":" ++ pySlice s 3 5) :=
  ⟨⟨by decide, by decide, by decide⟩, parse_u5_eq_none, parse_u5_eq_hoursBig,
    parse_u5_eq_minNone, parse_u5_eq_hours, parse_u5_eq_full⟩

/-- Witness for C2 (amended): one instantiation of each conditional
clause at a concrete cell. -/
theorem c2_amended_ok_witness :
    parse_u5 "x" = "" ∧ parse_u5 "\"2530\"" = "" ∧ parse_u5 "\"08xx\"" = "" ∧
    parse_u5 "\"0970\"" = pySlice "\"0970\"" 1 3 ∧
    parse_u5 "\"0845\"" =
      pySlice "\"0845\"" 1 3 ++ ":" ++ pySlice "\"0845\"" 3 5 :=
  ⟨c2_amended_ok.2.1 "x" (by decide),
   c2_amended_ok.2.2.1 "\"2530\"" 25 (by decide) (by decide),
   c2_amended_ok.2.2.2.1 "\"08xx\"" 8 (by decide) (by decide) (by decide),
   c2_amended_ok.2.2.2.2.1 "\"0970\"" 9 70 (by decide) (by decide) (by decide)
     (by decide),
   c2_amended_ok.2.2.2.2.2 "\"0845\"" 8 45 (by decide) (by decide) (by decide)
     (by decide)⟩

/-- Claim C4, counterexample to the original statement: the clock-time
repair is not idempotent on its own outputs — applied to its emitted
`"08:45"` it returns `""` (the hour slice of `"08:45"` is `"8:"`, whose
parse raises). -/
theorem c4_original_fails :
    parse_u5 (parse_u5 "\"0845\"") ≠ parse_u5 "\"0845\"" := by
  decide

/-- Claim C4 (amended): the integer, float and unicode repairs are
idempotent on all inputs (hence on their own outputs), but the clock-time
repair is not: its second application returns the empty string for every
input, so an emitted `"HH:MM"` or hours-only value is not a fixed
point — only the `""` failure output is. -/
theorem c4_amended_ok :
    (∀ s, parse_i (parse_i s) = parse_i s) ∧
    (∀ s, parse_f (parse_f s) = parse_f s) ∧
    (∀ s, parse_u_m (parse_u_m s) = parse_u_m s) ∧
    (∀ s, parse_u5 (parse_u5 s) = "") :=
  ⟨parse_i_idem, parse_f_idem, parse_um_idem, parse_u5_parse_u5⟩

/-- Claim C7: for every semantic integer type the repair `parse_i` returns
the quote-stripped text unchanged when that text parses as a base-10
integer, and the sentinel `"-1"` otherwise; the `or '-1'` wrapper the
integer converters add (download.py:318) never fires because `parse_i`
never returns a falsy (empty) string. -/
theorem c7_integer_repair (s : String) :
    parse_i s =
      (if (pyIntParse (stripQuotes s)).isSome then stripQuotes s else "-1") ∧
    (parse_i s = stripQuotes s ∨ parse_i s = "-1") ∧
    pyOrStr (parse_i s) "-1" = parse_i s := by
  refine ⟨rfl, ?_, ?_⟩
  · by_cases h : (pyIntParse (stripQuotes s)).isSome
    · left
      exact parse_i_of_some s h
    · right
      unfold parse_i
      rw [if_neg h]
  · unfold pyOrStr
    rw [if_neg (parse_i_ne_empty s)]

/-- Claim C5: an unknown region code fails fast with the configuration
error (`NotImplementedError`) both in the builder and in the aggregator;
the error payload carries the offending region (the aggregator's message
interpolates the whole requested list, which contains every offender),
and the result depends on neither the archive folder nor the caches —
the failure happens before any network, archive or cache I/O. -/
theorem c5_unknown_region (env : Env) (st : DState) (region : String)
    (regs : List String) (r : String)
    (h1 : List.lookup region regions_files = none)
    (h2 : r ∈ regs) (h3 : List.lookup r regions_files = none) :
    parse_region_data env region = .error (.notImplementedRegion region) ∧
    get_list env st (some regs) = .error (.notImplementedRegions regs) := by
  constructor
  · unfold parse_region_data
    rw [h1]
  · have hfalse : regs.all (fun x => (List.lookup x regions_files).isSome) = false :=
      all_false_of_mem _ regs r h2 (by rw [h3]; rfl)
    unfold get_list
    dsimp only
    simp only [hfalse]
    rfl

/-- Witness for C5 at the unknown code `"ZZZ"`, for an arbitrary folder
and a fresh instance. -/
theorem c5_unknown_region_witness :
    parse_region_data ⟨[]⟩ "ZZZ" = .error (.notImplementedRegion "ZZZ") ∧
    get_list ⟨[]⟩ freshState (some ["STC", "ZZZ"]) =
      .error (.notImplementedRegions ["STC", "ZZZ"]) :=
  c5_unknown_region ⟨[]⟩ freshState "ZZZ" ["STC", "ZZZ"] "ZZZ" (by decide)
    (by decide) (by decide)

/-- Claim C10: `get_list` with an empty (but non-`None`) region list does
not return an empty table: validation vacuously succeeds, the loop runs
zero times, and the final log loop dereferences the never-assigned
`output`, raising `TypeError` — for every instance state and folder. -/
theorem c10_empty_regions_raises (env : Env) (st : DState) :
    get_list env st (some []) = .error .typeErrorNone := rfl

/-- Claim C6: whenever the builder returns a table for a supported region,
that table has the 65 schema names, exactly 65 columns, every column's
length equals the total number of data rows across all archive members
matching the region's source file name (appended archive-by-archive in
insertion order), and column 0 is the prepended constant region-code
column of that same length. -/
theorem c6_builder_shape (env : Env) (region fname : String) (t : Table)
    (hl : List.lookup region regions_files = some fname)
    (h : parse_region_data env region = .ok t) :
    t.names = schemaNames ∧ t.names.length = 65 ∧ t.cols.length = 65 ∧
    (∀ c ∈ t.cols, c.length = (matchedRows env fname).length) ∧
    t.cols.headD [] = List.replicate (matchedRows env fname).length region := by
  obtain ⟨fn2, hl2, rfl⟩ := parse_ok_shape env region t h
  rw [hl] at hl2
  injection hl2 with hfn
  subst hfn
  refine ⟨rfl, rfl, ?_, ?_, rfl⟩
  · show (List.replicate (matchedRows env fname).length region ::
      dataCols (matchedRows env fname)).length = 65
    rw [List.length_cons, dataCols_length]
  · intro c hc
    rcases List.mem_cons.mp hc with h1 | h1
    · rw [h1, List.length_replicate]
    · exact dataCols_mem_length _ c h1

/-- Witness for C6 on the miniature folder `wEnv` at region STC (two data
rows in the matching member `01.csv`). -/
theorem c6_builder_shape_witness :
    wTSTC.names = schemaNames ∧ wTSTC.names.length = 65 ∧
    wTSTC.cols.length = 65 ∧
    (∀ c ∈ wTSTC.cols, c.length = (matchedRows wEnv "01.csv").length) ∧
    wTSTC.cols.headD [] =
      List.replicate (matchedRows wEnv "01.csv").length "STC" :=
  c6_builder_shape wEnv "STC" "01.csv" wTSTC rfl rfl

/-- Claim C8: building a region on a fresh instance persists the table to
the per-region cache file, and a later `get_list` on a fresh program
cache but with that cache file present returns a table equal
element-for-element to the pre-persist one — cache write followed by
cache read is the identity on tables (pickle/gzip serialisation is
modelled as a faithful store). -/
theorem c8_cache_roundtrip (env : Env) (r : String) (t : Table)
    (h : parse_region_data env r = .ok t) :
    get_list env freshState (some [r]) = .ok (⟨[(r, t)], [(r, t)]⟩, t) ∧
    get_list env ⟨[], [(r, t)]⟩ (some [r]) = .ok (⟨[(r, t)], [(r, t)]⟩, t) := by
  have hv : [r].all (fun x => (List.lookup x regions_files).isSome) = true := by
    rw [List.all_cons, parse_ok_valid env r t h]
    rfl
  constructor
  · apply get_list_of_valid env freshState _ [r] r t hv
    rw [getLoop_cons_none env freshState _ r [] t
      (resolve_miss env [] [] r t rfl rfl h)]
    rfl
  · apply get_list_of_valid env _ _ [r] r t hv
    rw [getLoop_cons_none env _ _ r [] t
      (resolve_hitFile env [] [(r, t)] r t rfl (lookup_cons_self r t []))]
    rfl

/-- Witness for C8 on the miniature folder `wEnv` at region MSK. -/
theorem c8_cache_roundtrip_witness :
    get_list wEnv freshState (some ["MSK"]) =
      .ok (⟨[("MSK", wTMSK)], [("MSK", wTMSK)]⟩, wTMSK) ∧
    get_list wEnv ⟨[], [("MSK", wTMSK)]⟩ (some ["MSK"]) =
      .ok (⟨[("MSK", wTMSK)], [("MSK", wTMSK)]⟩, wTMSK) :=
  c8_cache_roundtrip wEnv "MSK" wTMSK rfl

/-- Claim C3: on one instance (fresh caches for STC and MSK), requesting
`["STC"]`, then `["MSK"]`, then `["STC", "MSK"]` yields a combined table
whose row count is the sum of the two single-region row counts and whose
region column is exactly the STC block followed by the MSK block — only
those two values, each contiguous, in request order. -/
theorem c3_aggregator_additive (env : Env) (tS tM : Table)
    (hS : parse_region_data env "STC" = .ok tS)
    (hM : parse_region_data env "MSK" = .ok tM) :
    ∃ st1 st2 st3 tC,
      get_list env freshState (some ["STC"]) = .ok (st1, tS) ∧
      get_list env st1 (some ["MSK"]) = .ok (st2, tM) ∧
      get_list env st2 (some ["STC", "MSK"]) = .ok (st3, tC) ∧
      rowCount tC = rowCount tS + rowCount tM ∧
      tC.cols.headD [] =
        List.replicate (rowCount tS) "STC" ++
          List.replicate (rowCount tM) "MSK" := by
  obtain ⟨nS, csS, hcS, -, -⟩ := parse_ok_cols env "STC" tS hS
  obtain ⟨nM, csM, hcM, -, -⟩ := parse_ok_cols env "MSK" tM hM
  have hrS : rowCount tS = nS := by
    unfold rowCount
    rw [hcS]
    exact List.length_replicate nS "STC"
  have hrM : rowCount tM = nM := by
    unfold rowCount
    rw [hcM]
    exact List.length_replicate nM "MSK"
  have hc := concatT_head tS tM _ _ _ _ hcS hcM
  refine ⟨⟨[("STC", tS)], [("STC", tS)]⟩,
    ⟨[("MSK", tM), ("STC", tS)], [("MSK", tM), ("STC", tS)]⟩,
    ⟨[("STC", concatT tS tM), ("MSK", tM), ("STC", tS)],
      [("MSK", tM), ("STC", tS)]⟩,
    concatT tS tM, ?_, ?_, ?_, ?_, ?_⟩
  · apply get_list_of_valid env freshState _ ["STC"] "STC" tS (by decide)
    rw [getLoop_cons_none env freshState _ "STC" [] tS
      (resolve_miss env [] [] "STC" tS rfl rfl hS)]
    rfl
  · apply get_list_of_valid env _ _ ["MSK"] "MSK" tM (by decide)
    rw [getLoop_cons_none env _ _ "MSK" [] tM
      (resolve_miss env [("STC", tS)] [("STC", tS)] "MSK" tM rfl rfl hM)]
    rfl
  · apply get_list_of_valid env _ _ ["STC", "MSK"] "STC" (concatT tS tM)
      (by decide)
    rw [getLoop_cons_none env _ _ "STC" ["MSK"] tS
      (resolve_hitProg env ⟨[("MSK", tM), ("STC", tS)], [("MSK", tM), ("STC", tS)]⟩
        "STC" tS rfl)]
    rw [getLoop_cons_some env _ _ _ "MSK" "STC" [] tM tS
      (resolve_hitProg env ⟨[("MSK", tM), ("STC", tS)], [("MSK", tM), ("STC", tS)]⟩
        "MSK" tM rfl)]
    rfl
  · unfold rowCount
    rw [hc, hcS, hcM]
    show (List.replicate nS "STC" ++ List.replicate nM "MSK").length =
      (List.replicate nS "STC").length + (List.replicate nM "MSK").length
    exact List.length_append _ _
  · rw [hrS, hrM]
    rw [hc]
    rfl

/-- Witness for C3 on the miniature folder `wEnv` (two STC rows, one MSK
row). -/
theorem c3_aggregator_additive_witness :
    ∃ st1 st2 st3 tC,
      get_list wEnv freshState (some ["STC"]) = .ok (st1, wTSTC) ∧
      get_list wEnv st1 (some ["MSK"]) = .ok (st2, wTMSK) ∧
      get_list wEnv st2 (some ["STC", "MSK"]) = .ok (st3, tC) ∧
      rowCount tC = rowCount wTSTC + rowCount wTMSK ∧
      tC.cols.headD [] =
        List.replicate (rowCount wTSTC) "STC" ++
          List.replicate (rowCount wTMSK) "MSK" :=
  c3_aggregator_additive wEnv wTSTC wTMSK rfl rfl

/-- Claim C9: on a fresh instance (empty program cache, arbitrary cache
files on disk), `get_list` for any request of two or more distinct known
regions — each resolving from its cache file or by a successful build —
returns exactly the table stored as the first requested region's
in-memory cache entry: the left fold of columnwise concatenation over all
requested regions' tables, because the output accumulator aliases that
entry and every concatenation writes into it; consequently a later
`get_list` on the same instance for the first region alone returns those
combined rows rather than only that region's rows, leaving the state
unchanged. -/
theorem c9_first_cache_mutated (env : Env) (f : List (String × Table))
    (r1 : String) (rs : List String) (t1 : Table) (ts : List Table)
    (_hmore : rs ≠ [])
    (hdist : (r1 :: rs).Pairwise (fun a b => a ≠ b))
    (hvalid : ∀ r ∈ r1 :: rs, (List.lookup r regions_files).isSome = true)
    (h1 : resolveT env f r1 = some t1)
    (hres : List.Forall₂ (fun r t => resolveT env f r = some t) rs ts) :
    ∃ st1 : DState,
      get_list env ⟨[], f⟩ (some (r1 :: rs)) = .ok (st1, ts.foldl concatT t1) ∧
      List.lookup r1 st1.progCache = some (ts.foldl concatT t1) ∧
      get_list env st1 (some [r1]) = .ok (st1, ts.foldl concatT t1) := by
  have hv : (r1 :: rs).all (fun x => (List.lookup x regions_files).isSome) = true :=
    List.all_eq_true.mpr hvalid
  have hv1 : [r1].all (fun x => (List.lookup x regions_files).isSome) = true := by
    rw [List.all_cons, hvalid r1 (List.mem_cons_self r1 rs)]
    rfl
  have hd0 : ∀ r ∈ rs, r1 ≠ r := by
    cases hdist with | cons h2 h3 => exact h2
  have hnd : rs.Pairwise (fun a b => a ≠ b) := by
    cases hdist with | cons h2 h3 => exact h3
  have hp2 : ∀ x ∈ rs, List.lookup x [(r1, t1)] = none := by
    intro x hx
    rw [lookup_cons_ne x r1 t1 [] (Ne.symm (hd0 x hx))]
    rfl
  rcases resolveRegion_resolveT env [] f r1 t1 rfl h1 with hcase | hcase
  · obtain ⟨p3, f3, heq, hlook⟩ :=
      getLoop_resolveT env f rs ts hres r1 t1 [(r1, t1)] f hd0 hnd hp2
        (fun x _ => rfl) (lookup_cons_self r1 t1 [])
    refine ⟨⟨p3, f3⟩, ?_, hlook, ?_⟩
    · apply get_list_of_valid env ⟨[], f⟩ _ (r1 :: rs) r1 (ts.foldl concatT t1) hv
      rw [getLoop_cons_none env ⟨[], f⟩ ⟨[(r1, t1)], f⟩ r1 rs t1 hcase]
      exact heq
    · apply get_list_of_valid env ⟨p3, f3⟩ _ [r1] r1 (ts.foldl concatT t1) hv1
      rw [getLoop_cons_none env ⟨p3, f3⟩ ⟨p3, f3⟩ r1 [] (ts.foldl concatT t1)
        (resolve_hitProg env ⟨p3, f3⟩ r1 (ts.foldl concatT t1) hlook)]
      rfl
  · obtain ⟨p3, f3, heq, hlook⟩ :=
      getLoop_resolveT env f rs ts hres r1 t1 [(r1, t1)] ((r1, t1) :: f) hd0 hnd
        hp2
        (fun x hx => lookup_cons_ne x r1 t1 f (Ne.symm (hd0 x hx)))
        (lookup_cons_self r1 t1 [])
    refine ⟨⟨p3, f3⟩, ?_, hlook, ?_⟩
    · apply get_list_of_valid env ⟨[], f⟩ _ (r1 :: rs) r1 (ts.foldl concatT t1) hv
      rw [getLoop_cons_none env ⟨[], f⟩ ⟨[(r1, t1)], (r1, t1) :: f⟩ r1 rs t1 hcase]
      exact heq
    · apply get_list_of_valid env ⟨p3, f3⟩ _ [r1] r1 (ts.foldl concatT t1) hv1
      rw [getLoop_cons_none env ⟨p3, f3⟩ ⟨p3, f3⟩ r1 [] (ts.foldl concatT t1)
        (resolve_hitProg env ⟨p3, f3⟩ r1 (ts.foldl concatT t1) hlook)]
      rfl

/-- Witness for C9 on the miniature folder `wEnv`, requesting STC then
MSK from a fresh instance with no cache files. -/
theorem c9_first_cache_mutated_witness :
    ∃ st1 : DState,
      get_list wEnv ⟨[], []⟩ (some ["STC", "MSK"]) =
        .ok (st1, [wTMSK].foldl concatT wTSTC) ∧
      List.lookup "STC" st1.progCache = some ([wTMSK].foldl concatT wTSTC) ∧
      get_list wEnv st1 (some ["STC"]) =
        .ok (st1, [wTMSK].foldl concatT wTSTC) :=
  c9_first_cache_mutated wEnv [] "STC" ["MSK"] wTSTC [wTMSK] (by decide)
    (by decide) (by decide) rfl (List.Forall₂.cons rfl List.Forall₂.nil)

end IZV

